import Mathlib

/-!
Shallow embedding of the decision-orchestration core of the
`claude-agents` repository (Python sources under `src/`):

* `orchestrator.py` — task model, task-graph builder (`_decompose_request`),
  scheduler (`_execute_tasks`), synthesizer (`_synthesize_results` and its
  helpers `_calculate_confidence`, `_generate_warnings`,
  `_requires_human_review`, `_extract_symbols`).
* `portfolio_construction_agent.py` — asset universe, screener
  (`screen_assets`), the post-processing step of
  `PortfolioOptimizer.optimize_portfolio`, and the screening/error path of
  `PortfolioConstructionAgent.process`.
* `risk_assessment_agent.py` — the shape of the result mapping returned by
  `RiskAssessmentAgent.process` (the part the synthesizer consumes).

Python floats are modelled as exact rationals (`ℚ`), Python exceptions as
`Except String`, dictionaries as association lists, and the unbounded
recursion of `_execute_tasks` with explicit fuel (`none` = the recursion
never returns).  Wall-clock timestamps and freshly drawn UUIDs are not
modelled (ids are parameters); randomly drawn metric values are parameters
of the result-shape functions.  The SLSQP solver call inside
`optimize_portfolio` is an external library call, so the deterministic
post-processing is modelled as a function of the weight vector returned by the solver.
-/

namespace ClaudeAgents

/-- The `TaskPriority` enum of `orchestrator.py` (LOW=1 … CRITICAL=4). -/
inductive TaskPriority where
  | low
  | medium
  | high
  | critical
deriving DecidableEq, Repr

/-- Numeric value of a priority, as in the Python enum. -/
def TaskPriority.val : TaskPriority → Nat
  | .low => 1
  | .medium => 2
  | .high => 3
  | .critical => 4

/-- The `AgentType` enum of `orchestrator.py`. -/
inductive AgentType where
  | market_research
  | sentiment_analysis
  | risk_assessment
  | portfolio_construction
deriving DecidableEq, Repr

/-- Python `str(AgentType.X)` as it appears in the missing-agent message. -/
def AgentType.pyName : AgentType → String
  | .market_research => "AgentType.MARKET_RESEARCH"
  | .sentiment_analysis => "AgentType.SENTIMENT_ANALYSIS"
  | .risk_assessment => "AgentType.RISK_ASSESSMENT"
  | .portfolio_construction => "AgentType.PORTFOLIO_CONSTRUCTION"

/-- The `TaskStatus` enum of `orchestrator.py`. -/
inductive TaskStatus where
  | pending
  | in_progress
  | completed
  | failed
  | cancelled
deriving DecidableEq, Repr

/-- A payload value (`Dict[str, Any]` entries used by `_decompose_request`:
strings, lists of symbol strings, and numbers). -/
inductive PVal where
  | num (q : ℚ)
  | str (s : String)
  | strs (l : List String)
deriving DecidableEq, Repr

/-- The `Task` dataclass of `orchestrator.py`.  `created_at` /
`completed_at` timestamps, the per-task audit trail and the cached
`result` field are not modelled (results are tracked in the scheduler
result mapping); ids are `Nat` in place of UUID strings. -/
structure Task where
  task_id : Nat
  agent_type : AgentType
  priority : TaskPriority
  payload : List (String × PVal)
  status : TaskStatus
  parent_task_id : Option Nat
  error : Option String
deriving DecidableEq, Repr

/-- The `InvestmentContext` dataclass (request id and timestamps omitted;
`capital_available` as an exact rational). -/
structure InvestmentContext where
  user_id : String
  risk_tolerance : String
  investment_horizon : String
  capital_available : ℚ
  investment_goals : List String
  restrictions : List String
  regulatory_jurisdiction : String
deriving DecidableEq, Repr

/-- An agent-result value: the JSON-like mappings the worker agents
return (`Dict[str, Any]`). -/
inductive RVal where
  | num (q : ℚ)
  | str (s : String)
  | strs (l : List String)
  | obj (fields : List (String × RVal))

/-- Python `d.get(k)` on an object value: first binding of the key. -/
def RVal.get : RVal → String → Option RVal
  | .obj fields, k => (fields.find? (fun p => p.1 = k)).map (fun p => p.2)
  | _, _ => none

/-- Python `d.get(k, default)` where the looked-up value is used as a
number (as in `risk.get("volatility", 0)`). -/
def RVal.getNum (r : RVal) (k : String) (d : ℚ) : ℚ :=
  match r.get k with
  | some (.num q) => q
  | _ => d

/-- Python `d.get(k, default)` where the looked-up value is used as a
string. -/
def RVal.getStr (r : RVal) (k : String) (d : String) : String :=
  match r.get k with
  | some (.str s) => s
  | _ => d

/-- The `Dict[AgentType, Any]` result mapping accumulated by the
scheduler. -/
abbrev Results : Type := List (AgentType × RVal)

/-- Lookup `results[k]`. -/
def lookupR (rs : Results) (k : AgentType) : Option RVal :=
  (rs.find? (fun p => p.1 = k)).map (fun p => p.2)

/-- Membership test `k in results`. -/
def hasKey (rs : Results) (k : AgentType) : Bool :=
  rs.any (fun p => p.1 == k)

/-- Assignment `results[k] = v`: overwrite in place if the key exists, else append
(Python dict assignment). -/
def setR (rs : Results) (k : AgentType) (v : RVal) : Results :=
  if rs.any (fun p => p.1 == k) then
    rs.map (fun p => if p.1 == k then (k, v) else p)
  else
    rs ++ [(k, v)]

/-- Update `results.update(additional)` (Python dict update, iterating the
additional mapping in order; later keys overwrite). -/
def updateR (rs add : Results) : Results :=
  add.foldl (fun acc p => setR acc p.1 p.2) rs

/-- The agent registry `self.agents : Dict[AgentType, BaseAgent]`; an
agent method `process` is a function from task and context to a result or a
raised error message. -/
abbrev Registry : Type := AgentType → Option (Task → InvestmentContext → Except String RVal)

/-- Insert one task into an already priority-descending list, keeping it
after earlier tasks of the same priority (stability). -/
def insertDesc (t : Task) : List Task → List Task
  | [] => [t]
  | u :: us => if u.priority.val < t.priority.val then t :: u :: us else u :: insertDesc t us

/-- Python `sorted(self.task_queue, key=lambda t: t.priority.value, reverse=True)`:
stable sort by descending priority. -/
def sortTasks (l : List Task) : List Task :=
  l.foldl (fun acc t => insertDesc t acc) []

/-- The parent-dependency check of `_execute_tasks` (lines 238–241):
`any(t.task_id == task.parent_task_id and t.status == COMPLETED for t in
self.completed_tasks)`. -/
def parentIsCompleted (completed : List Task) (p : Nat) : Bool :=
  completed.any (fun u => u.task_id == p && u.status == TaskStatus.completed)

/-- Outcome of one pass of the `for task in sorted_tasks` loop. -/
structure PassOut where
  pending : List Task
  completed : List Task
  results : Results
  started : List (Task × List Task)
  failed : List Task

/-- One pass of the scheduler loop (`_execute_tasks` lines 235–264),
threading the completed set, the result mapping and the deferred
(`pending_tasks`) list exactly as the Python loop does.  `started`
additionally records each task that was marked `IN_PROGRESS`, paired with
the completed set at that moment (instrumentation only: it does not
influence the computation). -/
def passLoop (reg : Registry) (ctx : InvestmentContext) :
    List Task → List Task → Results → List Task →
    List (Task × List Task) → List Task → PassOut
  | [], completed, results, pending, started, failed =>
      ⟨pending, completed, results, started, failed⟩
  | t :: ts, completed, results, pending, started, failed =>
      let blocked : Bool :=
        match t.parent_task_id with
        | some p => !parentIsCompleted completed p
        | none => false
      if blocked then
        passLoop reg ctx ts completed results (pending ++ [t]) started failed
      else
        let t1 : Task := { t with status := TaskStatus.in_progress }
        let started1 := started ++ [(t1, completed)]
        match reg t.agent_type with
        | none =>
            let tf : Task := { t1 with
              status := TaskStatus.failed,
              error := some ("No agent registered for type " ++ t.agent_type.pyName) }
            passLoop reg ctx ts completed results pending started1 (failed ++ [tf])
        | some f =>
            match f t1 ctx with
            | .ok r =>
                let tc : Task := { t1 with status := TaskStatus.completed }
                passLoop reg ctx ts (completed ++ [tc]) (setR results t.agent_type r)
                  pending started1 failed
            | .error e =>
                let tf : Task := { t1 with
                  status := TaskStatus.failed, error := some e }
                passLoop reg ctx ts completed results pending started1 (failed ++ [tf])

/-- Accumulated outcome of a whole `_execute_tasks` run. -/
structure ExecOut where
  results : Results
  completed : List Task
  started : List (Task × List Task)
  failed : List Task

/-- Method `OrchestratorAgent._execute_tasks` (lines 230–273): sort the queue by
descending priority, run one pass, and if the deferred set is non-empty
recurse on it with the grown completed set, merging the recursive result
mapping with `results.update(...)`.  The Python recursion has no fuel;
`executeTasks fuel … = none` means the recursion has not returned after
`fuel` passes, and `(∀ fuel, … = none)` means it never returns. -/
def executeTasks (reg : Registry) (ctx : InvestmentContext) :
    Nat → List Task → List Task → Option ExecOut
  | 0, _, _ => none
  | fuel + 1, queue, completed =>
      let pass := passLoop reg ctx (sortTasks queue) completed [] [] [] []
      if pass.pending.isEmpty then
        some ⟨pass.results, pass.completed, pass.started, pass.failed⟩
      else
        match executeTasks reg ctx fuel pass.pending pass.completed with
        | none => none
        | some out =>
            some ⟨updateR pass.results out.results, out.completed,
                  pass.started ++ out.started, pass.failed ++ out.failed⟩

/-- Python truthiness of a result value (an empty dict or list is falsy),
as used by the walrus-guards `if risk := results.get(...)` in the
synthesizer. -/
def RVal.truthy : RVal → Bool
  | .num q => !(q == 0)
  | .str s => !s.isEmpty
  | .strs l => !l.isEmpty
  | .obj fields => !fields.isEmpty

/-- Method `OrchestratorAgent._calculate_confidence` (lines 301–311). -/
def calculate_confidence (results : Results) : ℚ :=
  let base : ℚ := 0.5
  let base := if hasKey results AgentType.market_research then base + 0.2 else base
  let base := if hasKey results AgentType.sentiment_analysis then base + 0.15 else base
  let base := if hasKey results AgentType.risk_assessment then base + 0.15 else base
  min base 0.95

/-- Method `OrchestratorAgent._requires_human_review` (lines 348–355). -/
def requires_human_review (confidence : ℚ) (ctx : InvestmentContext) : Bool :=
  if confidence < 0.7 then true
  else if ctx.capital_available > 100000 then true
  else if ctx.risk_tolerance == "aggressive" then true
  else false

/-- Warning text appended on a conservative-tolerance volatility breach. -/
def volatilityWarning : String :=
  "Portfolio volatility exceeds conservative risk tolerance"

/-- Fixed informational disclaimer appended for US jurisdiction. -/
def usDisclaimer : String :=
  "This recommendation is for informational purposes only and not financial advice"

/-- Method `OrchestratorAgent._generate_warnings` (lines 334–346). -/
def generate_warnings (results : Results) (ctx : InvestmentContext) : List String :=
  let warnings : List String := []
  let warnings :=
    if ctx.risk_tolerance == "conservative" then
      match lookupR results AgentType.risk_assessment with
      | some risk =>
          if risk.truthy then
            if risk.getNum "volatility" 0 > 0.2 then warnings ++ [volatilityWarning]
            else warnings
          else warnings
      | none => warnings
    else warnings
  let warnings :=
    if ctx.regulatory_jurisdiction == "US" then warnings ++ [usDisclaimer] else warnings
  warnings

/-- Method `OrchestratorAgent._generate_reasoning` (lines 313–325). -/
def generate_reasoning (results : Results) : List String :=
  let reasoning : List String := []
  let reasoning :=
    match lookupR results AgentType.market_research with
    | some m => if m.truthy then
        reasoning ++ ["Market analysis indicates " ++ m.getStr "trend" "stable" ++ " conditions"]
      else reasoning
    | none => reasoning
  let reasoning :=
    match lookupR results AgentType.sentiment_analysis with
    | some s => if s.truthy then
        reasoning ++ ["Sentiment analysis shows " ++ s.getStr "overall" "neutral" ++ " market sentiment"]
      else reasoning
    | none => reasoning
  let reasoning :=
    match lookupR results AgentType.risk_assessment with
    | some r => if r.truthy then
        reasoning ++ ["Risk assessment identifies " ++ r.getStr "level" "moderate" ++ " risk level"]
      else reasoning
    | none => reasoning
  reasoning

/-- Method `OrchestratorAgent._collect_data_sources` (lines 327–332); the
Python `list(set(...))` iterates in unspecified order, modelled as
first-occurrence deduplication. -/
def collect_data_sources (results : Results) : List String :=
  ((results.map (fun p =>
    match p.2.get "sources" with
    | some (.strs l) => l
    | _ => [])).flatten).eraseDups

/-- The `InvestmentRecommendation` dataclass restricted to the fields the
synthesizer computes from the result mapping (recommendation id, context
back-reference, timestamp and audit trail omitted). -/
structure InvestmentRecommendation where
  portfolio : RVal
  risk_metrics : RVal
  expected_returns : RVal
  confidence_score : ℚ
  reasoning : List String
  data_sources : List String
  warnings : List String
  human_review_required : Bool

/-- Method `OrchestratorAgent._synthesize_results` (lines 275–299). -/
def synthesize_results (results : Results) (ctx : InvestmentContext) :
    InvestmentRecommendation :=
  let portfolio := (lookupR results AgentType.portfolio_construction).getD (.obj [])
  let risk_metrics := (lookupR results AgentType.risk_assessment).getD (.obj [])
  let confidence_score := calculate_confidence results
  { portfolio := (portfolio.get "allocation").getD (.obj [])
    risk_metrics := (risk_metrics.get "metrics").getD (.obj [])
    expected_returns := (portfolio.get "expected_returns").getD (.obj [])
    confidence_score := confidence_score
    reasoning := generate_reasoning results
    data_sources := collect_data_sources results
    warnings := generate_warnings results ctx
    human_review_required := requires_human_review confidence_score ctx }

/-- Predicate for word characters in the regex sense of `\b` and `\w`
(ASCII range, as relevant to the fixed pattern). -/
def isWordChar (c : Char) : Bool := c.isAlphanum || c == '_'

/-- Predicate for an uppercase ASCII letter, the `[A-Z]` character class. -/
def isUpperAZ (c : Char) : Bool := decide ('A' ≤ c) && decide (c ≤ 'Z')

/-- Accumulator recursion splitting a character list into maximal runs of
word characters. -/
def wordRunsAux : List Char → List Char → List (List Char)
  | [], acc => if acc.isEmpty then [] else [acc]
  | c :: cs, acc =>
      if isWordChar c then wordRunsAux cs (acc ++ [c])
      else if acc.isEmpty then wordRunsAux cs acc
      else acc :: wordRunsAux cs []

/-- Maximal runs of word characters of a string, the substrings a
`\b...\b` regex can match against. -/
def wordRuns (l : List Char) : List (List Char) := wordRunsAux l []

/-- Method `OrchestratorAgent._extract_symbols` (lines 357–361):
`re.findall` of the fixed pattern (a whole word-character run consisting
of 1–5 uppercase letters), then the explicit length-at-least-2 filter. -/
def extract_symbols (query : String) : List String :=
  let potential_symbols :=
    ((wordRuns query.toList).filter
      (fun r => r.all isUpperAZ && decide (1 ≤ r.length) && decide (r.length ≤ 5))).map
      (fun r => String.mk r)
  potential_symbols.filter (fun s => decide (2 ≤ s.length))

/-- Method `OrchestratorAgent._decompose_request` (lines 183–228); the
four freshly drawn UUIDs are parameters `i1 … i4`. -/
def decompose_request (i1 i2 i3 i4 : Nat) (query : String) (ctx : InvestmentContext) :
    List Task :=
  let market_research_task : Task :=
    ⟨i1, .market_research, .high,
     [("query", .str query), ("symbols", .strs (extract_symbols query))],
     .pending, none, none⟩
  let sentiment_task : Task :=
    ⟨i2, .sentiment_analysis, .medium,
     [("query", .str query), ("symbols", .strs (extract_symbols query))],
     .pending, none, none⟩
  let risk_task : Task :=
    ⟨i3, .risk_assessment, .high,
     [("risk_tolerance", .str ctx.risk_tolerance)],
     .pending, some i1, none⟩
  let portfolio_task : Task :=
    ⟨i4, .portfolio_construction, .critical,
     [("capital", .num ctx.capital_available)],
     .pending, some i3, none⟩
  [market_research_task, sentiment_task, risk_task, portfolio_task]

/-- The `AssetCandidate` dataclass of `portfolio_construction_agent.py`. -/
structure AssetCandidate where
  symbol : String
  asset_type : String
  beta : ℚ
  expected_return : ℚ
  volatility : ℚ
  liquidity_score : ℚ
  expense_ratio : ℚ
  market_cap : ℚ
  sector : String
  description : String
deriving DecidableEq, Repr

/-- The fixed 20-asset universe of `AssetScreener` (lines 39–62),
descriptions abbreviated to the ticker. -/
def asset_universe : List AssetCandidate :=
  [⟨"AGG", "ETF", 0.4, 0.03, 0.04, 0.95, 0.0003, 100000000000, "Bonds", "AGG"⟩,
   ⟨"BND", "ETF", 0.42, 0.032, 0.041, 0.94, 0.0003, 95000000000, "Bonds", "BND"⟩,
   ⟨"VCSH", "ETF", 0.25, 0.025, 0.03, 0.93, 0.0004, 50000000000, "Bonds", "VCSH"⟩,
   ⟨"MUB", "ETF", 0.35, 0.028, 0.038, 0.90, 0.0005, 30000000000, "Bonds", "MUB"⟩,
   ⟨"VPU", "ETF", 0.5, 0.06, 0.12, 0.88, 0.001, 15000000000, "Utilities", "VPU"⟩,
   ⟨"XLRE", "ETF", 0.65, 0.07, 0.15, 0.89, 0.001, 12000000000, "Real Estate", "XLRE"⟩,
   ⟨"VNQ", "ETF", 0.68, 0.072, 0.16, 0.91, 0.0012, 35000000000, "Real Estate", "VNQ"⟩,
   ⟨"DVY", "ETF", 0.75, 0.08, 0.14, 0.92, 0.0038, 20000000000, "Dividend", "DVY"⟩,
   ⟨"SCHD", "ETF", 0.72, 0.082, 0.13, 0.93, 0.0006, 45000000000, "Dividend", "SCHD"⟩,
   ⟨"VIG", "ETF", 0.78, 0.085, 0.135, 0.94, 0.0006, 70000000000, "Dividend", "VIG"⟩,
   ⟨"XLP", "ETF", 0.55, 0.065, 0.11, 0.93, 0.001, 18000000000, "Consumer Staples", "XLP"⟩,
   ⟨"VDC", "ETF", 0.53, 0.063, 0.108, 0.92, 0.001, 8000000000, "Consumer Staples", "VDC"⟩,
   ⟨"XLV", "ETF", 0.60, 0.09, 0.13, 0.94, 0.001, 40000000000, "Healthcare", "XLV"⟩,
   ⟨"USMV", "ETF", 0.70, 0.085, 0.12, 0.95, 0.0015, 35000000000, "Low Volatility", "USMV"⟩,
   ⟨"SPLV", "ETF", 0.65, 0.075, 0.10, 0.93, 0.0025, 15000000000, "Low Volatility", "SPLV"⟩,
   ⟨"GLD", "ETF", 0.0, 0.05, 0.15, 0.96, 0.004, 70000000000, "Commodities", "GLD"⟩,
   ⟨"IAU", "ETF", 0.0, 0.048, 0.148, 0.95, 0.0025, 30000000000, "Commodities", "IAU"⟩,
   ⟨"SLV", "ETF", 0.1, 0.06, 0.25, 0.90, 0.005, 10000000000, "Commodities", "SLV"⟩,
   ⟨"TIP", "ETF", 0.45, 0.035, 0.06, 0.92, 0.0019, 25000000000, "Inflation Protected", "TIP"⟩,
   ⟨"VTIP", "ETF", 0.30, 0.03, 0.04, 0.91, 0.0004, 8000000000, "Inflation Protected", "VTIP"⟩]

/-- Strict comparison in the sort key order of `screen_assets`:
`key(x) = (x.liquidity_score, -x.expense_ratio)` compared
lexicographically (the sort is by this key, `reverse=True`). -/
def screenKeyLt (u a : AssetCandidate) : Bool :=
  decide (u.liquidity_score < a.liquidity_score) ||
    (u.liquidity_score == a.liquidity_score &&
      decide (-u.expense_ratio < -a.expense_ratio))

/-- Insert into an already key-descending list, after equal keys
(stability of the Python sort). -/
def insertByKeyDesc (a : AssetCandidate) :
    List AssetCandidate → List AssetCandidate
  | [] => [a]
  | u :: us => if screenKeyLt u a then a :: u :: us else u :: insertByKeyDesc a us

/-- Stable sort by descending `(liquidity_score, -expense_ratio)` key, the
`sorted(..., key=lambda x: (x.liquidity_score, -x.expense_ratio),
reverse=True)` of line 72. -/
def sortScreened (l : List AssetCandidate) : List AssetCandidate :=
  l.foldl (fun acc a => insertByKeyDesc a acc) []

/-- Method `AssetScreener.screen_assets` (lines 64–72). -/
def screen_assets (min_beta max_beta min_liquidity : ℚ) : List AssetCandidate :=
  sortScreened (asset_universe.filter (fun a =>
    decide (min_beta ≤ a.beta) && decide (a.beta ≤ max_beta) &&
      decide (a.liquidity_score ≥ min_liquidity)))

/-- Python `payload.get(k, default)` used as a number. -/
def payloadNum (payload : List (String × PVal)) (k : String) (d : ℚ) : ℚ :=
  match payload.find? (fun p => p.1 = k) with
  | some (_, .num q) => q
  | _ => d

/-- Python `k in payload`. -/
def payloadHas (payload : List (String × PVal)) (k : String) : Bool :=
  payload.any (fun p => p.1 == k)

/-- Method `PortfolioConstructionAgent._determine_beta_constraints`
(lines 300–316). -/
def determine_beta_constraints (payload : List (String × PVal))
    (risk_tolerance : String) : ℚ × ℚ :=
  if payloadHas payload "min_beta" && payloadHas payload "max_beta" then
    (payloadNum payload "min_beta" 0, payloadNum payload "max_beta" 0)
  else if risk_tolerance == "conservative" then (0.0, 0.6)
  else if risk_tolerance == "moderate" then (0.3, 0.9)
  else if risk_tolerance == "aggressive" then (0.7, 1.3)
  else if risk_tolerance == "very_aggressive" then (0.9, 2.0)
  else (0.3, 0.9)

/-- Method `PortfolioConstructionAgent._determine_target_return`
(lines 318–325). -/
def determine_target_return (risk_tolerance : String) : ℚ :=
  if risk_tolerance == "conservative" then 0.05
  else if risk_tolerance == "moderate" then 0.07
  else if risk_tolerance == "aggressive" then 0.10
  else if risk_tolerance == "very_aggressive" then 0.12
  else 0.07

/-- Method `PortfolioConstructionAgent._determine_max_position_size`
(lines 327–334). -/
def determine_max_position_size (risk_tolerance : String) : ℚ :=
  if risk_tolerance == "conservative" then 0.20
  else if risk_tolerance == "moderate" then 0.25
  else if risk_tolerance == "aggressive" then 0.35
  else if risk_tolerance == "very_aggressive" then 0.40
  else 0.25

/-- The post-processing step of `PortfolioOptimizer.optimize_portfolio`
(lines 123–131) applied to the weight vector `result.x` returned by the
solver: keep symbol/weight pairs with weight strictly above 1 percent,
then renormalize each kept weight by the total kept weight.  The Python
dict comprehension computes `v / total_weight` once per kept entry, so it
raises `ZeroDivisionError` exactly when the kept set is non-empty and the
total is zero, and returns an empty mapping (without dividing) when the
kept set is empty. -/
def postProcessAllocations (assets : List AssetCandidate)
    (optimal_weights : List ℚ) : Except String (List (String × ℚ)) :=
  let allocations :=
    ((assets.zip optimal_weights).filter
      (fun p => decide (p.2 > 0.01))).map (fun p => (p.1.symbol, p.2))
  let total_weight := (allocations.map (fun p => p.2)).sum
  if allocations.isEmpty then .ok []
  else if total_weight = 0 then .error "ZeroDivisionError: float division by zero"
  else .ok (allocations.map (fun p => (p.1, p.2 / total_weight)))

/-- Method `PortfolioConstructionAgent.process` (lines 213–298) up to the
fields of the result mapping that are claim-relevant: the beta/liquidity
screening, the empty-screening `ValueError`, and the allocation produced
by the optimizer post-processing.  The SLSQP call is a parameter `solver`
mapping the eligible assets and the max position size to the weight
vector `result.x`; the reporting fields that need real square roots
(volatility, Sharpe ratio) and wall-clock timestamps are omitted. -/
def portfolio_construction_process
    (solver : List AssetCandidate → ℚ → List ℚ)
    (task : Task) (ctx : InvestmentContext) : Except String RVal :=
  let beta_constraints := determine_beta_constraints task.payload ctx.risk_tolerance
  let liquidity_requirement := payloadNum task.payload "min_liquidity" 0.85
  let eligible_assets :=
    screen_assets beta_constraints.1 beta_constraints.2 liquidity_requirement
  if eligible_assets.isEmpty then
    .error "No assets found matching the specified criteria"
  else
    let max_position := determine_max_position_size ctx.risk_tolerance
    match postProcessAllocations eligible_assets (solver eligible_assets max_position) with
    | .error e => .error e
    | .ok allocations =>
        .ok (.obj
          [("allocation", .obj (allocations.map (fun p => (p.1, RVal.num p.2)))),
           ("eligible_assets_count", .num (eligible_assets.length : ℚ)),
           ("selected_assets_count", .num (allocations.length : ℚ))])

/-- Method `RiskAssessmentAgent._categorize_risk_level` (lines 408–416). -/
def categorize_risk_level (risk_score : ℚ) : String :=
  if risk_score < 0.3 then "low"
  else if risk_score < 0.5 then "moderate"
  else if risk_score < 0.7 then "high"
  else "very_high"

/-- The numeric risk metrics reported under the `"metrics"` key of the
risk-assessment result (randomly simulated in the source, hence
parameters here). -/
structure RiskMetricsVals where
  volatility : ℚ
  beta : ℚ
  sharpe_ratio : ℚ
  max_drawdown : ℚ
  value_at_risk : ℚ
  conditional_value_at_risk : ℚ
deriving DecidableEq, Repr

/-- The shape of the result mapping built by `RiskAssessmentAgent.process`
(lines 225–246): the numeric metrics are nested under the `"metrics"` key;
there is no top-level `"volatility"` key.  The simulated sub-mappings and
the timestamp are parameters. -/
def risk_process_result (m : RiskMetricsVals)
    (market_risk_factors stress_test_results suggested_allocation : RVal)
    (risk_score : ℚ) (recommendations : List String) : RVal :=
  .obj
    [("metrics", .obj
       [("volatility", .num m.volatility),
        ("beta", .num m.beta),
        ("sharpe_ratio", .num m.sharpe_ratio),
        ("max_drawdown", .num m.max_drawdown),
        ("value_at_risk", .num m.value_at_risk),
        ("conditional_value_at_risk", .num m.conditional_value_at_risk)]),
     ("market_risk_factors", market_risk_factors),
     ("stress_test_results", stress_test_results),
     ("suggested_allocation", suggested_allocation),
     ("risk_score", .num risk_score),
     ("level", .str (categorize_risk_level risk_score)),
     ("recommendations", .strs recommendations)]

/-- The task record produced when the scheduler catches the
missing-registration `ValueError` for a task (lines 250–252 and 261–263):
status `FAILED`, error message retained. -/
def missingAgentFail (t : Task) : Task :=
  { t with
    status := TaskStatus.failed,
    error := some ("No agent registered for type " ++ t.agent_type.pyName) }

/-! Concrete fixtures used by the counterexamples and witnesses. -/

/-- A demo context as built by `main.py` defaults: capital 30000, moderate
risk tolerance, US jurisdiction. -/
def ctx0 : InvestmentContext :=
  ⟨"demo_user", "moderate", "5 years", 30000, ["growth", "diversification"], [], "US"⟩

/-- The same context with aggressive risk tolerance. -/
def ctxAggressive : InvestmentContext := { ctx0 with risk_tolerance := "aggressive" }

/-- The same context with conservative risk tolerance. -/
def ctxConservative : InvestmentContext := { ctx0 with risk_tolerance := "conservative" }

/-- A parentless market-research task. -/
def taskParent : Task := ⟨0, .market_research, .high, [], .pending, none, none⟩

/-- A risk-assessment task whose parent is `taskParent`. -/
def taskChild : Task := ⟨1, .risk_assessment, .high, [], .pending, some 0, none⟩

/-- A registry in which the market-research agent always raises and the
risk-assessment agent would succeed. -/
def regFailingParent : Registry := fun ty =>
  match ty with
  | .market_research => some (fun _ _ => .error "market data fetch failed")
  | .risk_assessment => some (fun _ _ => .ok (.str "risk ok"))
  | _ => none

/-- A registry in which every agent type is registered and succeeds. -/
def regOk : Registry := fun _ => some (fun _ _ => .ok (.str "ok"))

/-- The parent task as recorded when it is started. -/
def taskParentStarted : Task := ⟨0, .market_research, .high, [], .in_progress, none, none⟩

/-- The parent task after successful completion. -/
def taskParentDone : Task := ⟨0, .market_research, .high, [], .completed, none, none⟩

/-- The child task as recorded when it is started. -/
def taskChildStarted : Task := ⟨1, .risk_assessment, .high, [], .in_progress, some 0, none⟩

/-- The child task after successful completion. -/
def taskChildDone : Task := ⟨1, .risk_assessment, .high, [], .completed, some 0, none⟩

/-- The outcome of running `[taskParent, taskChild]` under `regOk`. -/
def outOk : ExecOut :=
  ⟨[(.market_research, .str "ok"), (.risk_assessment, .str "ok")],
   [taskParentDone, taskChildDone],
   [(taskParentStarted, []), (taskChildStarted, [taskParentDone])],
   []⟩

/-- A critical portfolio-construction task with no registered agent. -/
def tC4portfolio : Task := ⟨10, .portfolio_construction, .critical, [], .pending, none, none⟩

/-- A sibling sentiment task with a registered agent. -/
def tC4sentiment : Task := ⟨11, .sentiment_analysis, .medium, [], .pending, none, none⟩

/-- A registry with only the sentiment agent registered. -/
def regC4 : Registry := fun ty =>
  match ty with
  | .sentiment_analysis => some (fun _ _ => .ok (.str "sentiment ok"))
  | _ => none

/-- The unregistered portfolio task as recorded when started. -/
def tC4pStarted : Task :=
  ⟨10, .portfolio_construction, .critical, [], .in_progress, none, none⟩

/-- The unregistered portfolio task after the caught `ValueError`. -/
def tC4pFailed : Task :=
  ⟨10, .portfolio_construction, .critical, [], .failed, none,
   some "No agent registered for type AgentType.PORTFOLIO_CONSTRUCTION"⟩

/-- The sentiment sibling as recorded when started. -/
def tC4sStarted : Task := ⟨11, .sentiment_analysis, .medium, [], .in_progress, none, none⟩

/-- The sentiment sibling after successful completion. -/
def tC4sDone : Task := ⟨11, .sentiment_analysis, .medium, [], .completed, none, none⟩

/-- The outcome of running `[tC4portfolio, tC4sentiment]` under `regC4`. -/
def outC4 : ExecOut :=
  ⟨[(.sentiment_analysis, .str "sentiment ok")],
   [tC4sDone],
   [(tC4pStarted, []), (tC4sStarted, [])],
   [tC4pFailed]⟩

/-- A degenerate solver standing in for SLSQP (never reached on the
empty-screening error path). -/
def solverZero : List AssetCandidate → ℚ → List ℚ := fun assets _ => assets.map (fun _ => 0)

/-- A portfolio-construction task demanding liquidity at least 0.99, which
no asset in the universe satisfies. -/
def tC5 : Task :=
  ⟨7, .portfolio_construction, .critical,
   [("capital", .num 30000), ("min_liquidity", .num 0.99)], .pending, none, none⟩

/-- A registry whose portfolio-construction agent is the modelled
`PortfolioConstructionAgent.process`. -/
def regC5 : Registry := fun ty =>
  match ty with
  | .portfolio_construction => some (portfolio_construction_process solverZero)
  | _ => none

/-- The infeasible-screening task as recorded when started. -/
def tC5Started : Task :=
  ⟨7, .portfolio_construction, .critical,
   [("capital", .num 30000), ("min_liquidity", .num 0.99)], .in_progress, none, none⟩

/-- The infeasible-screening task after the caught `ValueError`. -/
def tC5Failed : Task :=
  ⟨7, .portfolio_construction, .critical,
   [("capital", .num 30000), ("min_liquidity", .num 0.99)], .failed, none,
   some "No assets found matching the specified criteria"⟩

/-- The outcome of running `[tC5]` under `regC5`. -/
def outC5 : ExecOut := ⟨[], [], [(tC5Started, [])], [tC5Failed]⟩

/-- The first five assets of the universe (AGG, BND, VCSH, MUB, VPU). -/
def assetsFive : List AssetCandidate := asset_universe.take 5

/-- A solver output respecting the bounds `[0, 1/4]` and summing to 1, in
which one weight falls below the 1-percent cutoff. -/
def wsBoundary : List ℚ := [1/4, 1/4, 1/4, 49/200, 1/200]

/-- A solver output in which no weight exceeds the 1-percent cutoff. -/
def wsLow : List ℚ := [1/200, 1/200, 1/200, 1/100, 0]

/-- A result mapping in which all four agent types are present. -/
def allFourResults : Results :=
  [(.market_research, .str "ok"), (.sentiment_analysis, .str "ok"),
   (.risk_assessment, .str "ok"), (.portfolio_construction, .str "ok")]

/-- Risk metrics whose simulated volatility 0.3 exceeds the 0.20
threshold. -/
def riskMetricsHighVol : RiskMetricsVals := ⟨0.3, 1, 0.5, 0.1, 0.02, 0.03⟩

/-- The risk-assessment agent result built from `riskMetricsHighVol`. -/
def riskResultHighVol : RVal :=
  risk_process_result riskMetricsHighVol (.obj []) (.obj []) (.obj []) 0.5 []

/-- The expected screener output for beta range `[0.4, 0.8]` and minimum
liquidity 0.85: the fourteen qualifying assets in descending liquidity
order with ascending expense ratio as tie-break. -/
def screenedAssets : List AssetCandidate :=
  [⟨"AGG", "ETF", 0.4, 0.03, 0.04, 0.95, 0.0003, 100000000000, "Bonds", "AGG"⟩,
   ⟨"USMV", "ETF", 0.70, 0.085, 0.12, 0.95, 0.0015, 35000000000, "Low Volatility", "USMV"⟩,
   ⟨"BND", "ETF", 0.42, 0.032, 0.041, 0.94, 0.0003, 95000000000, "Bonds", "BND"⟩,
   ⟨"VIG", "ETF", 0.78, 0.085, 0.135, 0.94, 0.0006, 70000000000, "Dividend", "VIG"⟩,
   ⟨"XLV", "ETF", 0.60, 0.09, 0.13, 0.94, 0.001, 40000000000, "Healthcare", "XLV"⟩,
   ⟨"SCHD", "ETF", 0.72, 0.082, 0.13, 0.93, 0.0006, 45000000000, "Dividend", "SCHD"⟩,
   ⟨"XLP", "ETF", 0.55, 0.065, 0.11, 0.93, 0.001, 18000000000, "Consumer Staples", "XLP"⟩,
   ⟨"SPLV", "ETF", 0.65, 0.075, 0.10, 0.93, 0.0025, 15000000000, "Low Volatility", "SPLV"⟩,
   ⟨"VDC", "ETF", 0.53, 0.063, 0.108, 0.92, 0.001, 8000000000, "Consumer Staples", "VDC"⟩,
   ⟨"TIP", "ETF", 0.45, 0.035, 0.06, 0.92, 0.0019, 25000000000, "Inflation Protected", "TIP"⟩,
   ⟨"DVY", "ETF", 0.75, 0.08, 0.14, 0.92, 0.0038, 20000000000, "Dividend", "DVY"⟩,
   ⟨"VNQ", "ETF", 0.68, 0.072, 0.16, 0.91, 0.0012, 35000000000, "Real Estate", "VNQ"⟩,
   ⟨"XLRE", "ETF", 0.65, 0.07, 0.15, 0.89, 0.001, 12000000000, "Real Estate", "XLRE"⟩,
   ⟨"VPU", "ETF", 0.5, 0.06, 0.12, 0.88, 0.001, 15000000000, "Utilities", "VPU"⟩]

/-!
Theorems.  Each claim of the specification audit is settled by exactly one
theorem below (with helper lemmas shared across claims).
-/

/-- Helper for C1: once only the blocked child is left in the queue and
its parent can never enter the completed set, every pass defers it again,
so the recursion consumes any amount of fuel without returning. -/
theorem executeTasks_blocked_child_forever (n : Nat) :
    executeTasks regFailingParent ctx0 n [taskChild] [] = none := by
  induction n with
  | zero => rfl
  | succ n ih =>
      have hstep : executeTasks regFailingParent ctx0 (n + 1) [taskChild] [] =
          match executeTasks regFailingParent ctx0 n [taskChild] [] with
          | none => none
          | some out =>
              some ⟨updateR [] out.results, out.completed,
                    [] ++ out.started, [] ++ out.failed⟩ := rfl
      rw [hstep, ih]

/-- C1: the claim asserts that `_execute_tasks` terminates within
tree-depth passes even when a parent task fails, permanently skipping a
deferred task whose parent reached `FAILED`.  The code does the opposite:
the deferred child of the failed `taskParent` is re-appended to
`pending_tasks` on every pass, so the recursion never returns — for every
fuel bound the run is still unfinished, i.e. the Python recursion loops
forever (until `RecursionError`). -/
theorem c1_scheduler_diverges_when_parent_fails (fuel : Nat) :
    executeTasks regFailingParent ctx0 fuel [taskParent, taskChild] [] = none := by
  cases fuel with
  | zero => rfl
  | succ n =>
      have hstep : executeTasks regFailingParent ctx0 (n + 1) [taskParent, taskChild] [] =
          match executeTasks regFailingParent ctx0 n [taskChild] [] with
          | none => none
          | some out =>
              some ⟨updateR [] out.results, out.completed,
                    [(taskParentStarted, ([] : List Task))] ++ out.started,
                    [⟨0, .market_research, .high, [], .failed, none,
                      some "market data fetch failed"⟩] ++ out.failed⟩ := rfl
      rw [hstep, executeTasks_blocked_child_forever n]

/-- Helper for C2: extending the started-instrumentation list with one
task that passed the dependency guard preserves the guard property. -/
theorem started_ext_guard {started : List (Task × List Task)}
    (h : ∀ t c, (t, c) ∈ started → ∀ p, t.parent_task_id = some p →
      parentIsCompleted c p = true)
    (t1 : Task) (completed : List Task)
    (hpar : ∀ p', t1.parent_task_id = some p' → parentIsCompleted completed p' = true) :
    ∀ x cx, (x, cx) ∈ started ++ [(t1, completed)] →
      ∀ p', x.parent_task_id = some p' → parentIsCompleted cx p' = true := by
  intro x cx hx p' hp'
  rcases List.mem_append.mp hx with hx | hx
  · exact h x cx hx p' hp'
  · rcases List.mem_singleton.mp hx with hx
    have hx1 : x = t1 := congrArg Prod.fst hx
    have hx2 : cx = completed := congrArg Prod.snd hx
    subst hx1; subst hx2
    exact hpar p' hp'

/-- Helper for C2: within one pass, every task recorded as started with
parent `p` passed the dependency guard against the completed set recorded
alongside it. -/
theorem passLoop_started_parent_guard (reg : Registry) (ctx : InvestmentContext) :
    ∀ (ts completed : List Task) (results : Results) (pending : List Task)
      (started : List (Task × List Task)) (failed : List Task),
      (∀ t c, (t, c) ∈ started → ∀ p, t.parent_task_id = some p →
        parentIsCompleted c p = true) →
      ∀ t c, (t, c) ∈ (passLoop reg ctx ts completed results pending started failed).started →
        ∀ p, t.parent_task_id = some p → parentIsCompleted c p = true := by
  intro ts
  induction ts with
  | nil =>
      intro completed results pending started failed h t c hmem p hp
      exact h t c hmem p hp
  | cons t ts ih =>
      intro completed results pending started failed h u c hmem p hp
      obtain ⟨tid, ty, pr, pl, st, par, err⟩ := t
      cases par with
      | none =>
          have hpar : ∀ p', (⟨tid, ty, pr, pl, TaskStatus.in_progress, none, err⟩ :
                Task).parent_task_id = some p' →
              parentIsCompleted completed p' = true := by
            intro p' hp'; exact nomatch hp'
          rcases hreg : reg ty with _ | f
          · simp only [passLoop, hreg] at hmem
            exact ih _ _ _ _ _ (started_ext_guard h _ completed hpar) u c hmem p hp
          · rcases hres : f ⟨tid, ty, pr, pl, TaskStatus.in_progress, none, err⟩ ctx with r | r
            · simp only [passLoop, hreg, hres] at hmem
              exact ih _ _ _ _ _ (started_ext_guard h _ completed hpar) u c hmem p hp
            · simp only [passLoop, hreg, hres] at hmem
              exact ih _ _ _ _ _ (started_ext_guard h _ completed hpar) u c hmem p hp
      | some q =>
          rcases hq : parentIsCompleted completed q with _ | _
          · simp only [passLoop, hq, Bool.not_false, if_true] at hmem
            exact ih _ _ _ _ _ h u c hmem p hp
          · have hpar : ∀ p', (⟨tid, ty, pr, pl, TaskStatus.in_progress, some q, err⟩ :
                  Task).parent_task_id = some p' →
                parentIsCompleted completed p' = true := by
              intro p' hp'
              have : q = p' := Option.some.inj hp'
              rw [← this]
              exact hq
            rcases hreg : reg ty with _ | f
            · simp only [passLoop, hq, hreg, Bool.not_true, if_false] at hmem
              exact ih _ _ _ _ _ (started_ext_guard h _ completed hpar) u c hmem p hp
            · rcases hres : f ⟨tid, ty, pr, pl, TaskStatus.in_progress, some q, err⟩ ctx with r | r
              · simp only [passLoop, hq, hreg, hres, Bool.not_true, if_false] at hmem
                exact ih _ _ _ _ _ (started_ext_guard h _ completed hpar) u c hmem p hp
              · simp only [passLoop, hq, hreg, hres, Bool.not_true, if_false] at hmem
                exact ih _ _ _ _ _ (started_ext_guard h _ completed hpar) u c hmem p hp

/-- Helper for C2: the guard property lifted through the recursion of
`executeTasks`. -/
theorem executeTasks_started_parent_guard (reg : Registry) (ctx : InvestmentContext) :
    ∀ (fuel : Nat) (queue completed : List Task) (out : ExecOut),
      executeTasks reg ctx fuel queue completed = some out →
      ∀ t c, (t, c) ∈ out.started → ∀ p, t.parent_task_id = some p →
        parentIsCompleted c p = true := by
  intro fuel
  induction fuel with
  | zero => intro queue completed out h; exact nomatch h
  | succ n ih =>
      intro queue completed out h t c hmem p hp
      simp only [executeTasks] at h
      rcases hemp : (passLoop reg ctx (sortTasks queue) completed [] [] [] []).pending.isEmpty with _ | _
      · rw [hemp] at h
        simp only [Bool.false_eq_true, if_false] at h
        rcases heq : executeTasks reg ctx n
            (passLoop reg ctx (sortTasks queue) completed [] [] [] []).pending
            (passLoop reg ctx (sortTasks queue) completed [] [] [] []).completed with _ | out2
        · rw [heq] at h; exact nomatch h
        · rw [heq] at h
          have hout := Option.some.inj h
          rw [← hout] at hmem
          rcases List.mem_append.mp hmem with hm | hm
          · exact passLoop_started_parent_guard reg ctx _ _ _ _ _ _
              (fun x cx hx => absurd hx (List.not_mem_nil _)) t c hm p hp
          · exact ih _ _ _ heq t c hm p hp
      · rw [hemp] at h
        simp only [if_true] at h
        have hout := Option.some.inj h
        rw [← hout] at hmem
        exact passLoop_started_parent_guard reg ctx _ _ _ _ _ _
          (fun x cx hx => absurd hx (List.not_mem_nil _)) t c hmem p hp

/-- C2: for every scheduler run that returns, any task with a parent that
was ever started (marked `IN_PROGRESS` and handed to its agent) passed the
dependency guard: at the moment it was started the completed set contained
its parent with terminal status `COMPLETED` — so a child is never started
while its parent is `FAILED` or still `PENDING`. -/
theorem c2_child_started_only_after_parent_completed
    (reg : Registry) (ctx : InvestmentContext) (fuel : Nat)
    (queue completed : List Task) (out : ExecOut)
    (h : executeTasks reg ctx fuel queue completed = some out)
    (t : Task) (c : List Task) (hmem : (t, c) ∈ out.started)
    (p : Nat) (hp : t.parent_task_id = some p) :
    ∃ u ∈ c, u.task_id = p ∧ u.status = TaskStatus.completed := by
  have hg := executeTasks_started_parent_guard reg ctx fuel queue completed out h t c hmem p hp
  rw [parentIsCompleted, List.any_eq_true] at hg
  obtain ⟨u, hu, hcond⟩ := hg
  rw [Bool.and_eq_true, beq_iff_eq, beq_iff_eq] at hcond
  exact ⟨u, hu, hcond.1, hcond.2⟩

/-- Witness for C2 at a concrete run: under `regOk` the child task is
started only after its parent is completed. -/
theorem c2_witness :
    ∃ u ∈ [taskParentDone], u.task_id = 0 ∧ u.status = TaskStatus.completed :=
  c2_child_started_only_after_parent_completed regOk ctx0 1 [taskParent, taskChild] []
    outOk rfl taskChildStarted [taskParentDone] (by decide) 0 rfl

/-- Helper for C4: within one pass, every started task whose agent type
has no registration ends up in the failed list as `missingAgentFail`
(status `FAILED`, message retained); the pass continues. -/
theorem passLoop_missing_agent_contained (reg : Registry) (ctx : InvestmentContext) :
    ∀ (ts completed : List Task) (results : Results) (pending : List Task)
      (started : List (Task × List Task)) (failed : List Task),
      (∀ t c, (t, c) ∈ started → reg t.agent_type = none →
        missingAgentFail t ∈ failed) →
      ∀ t c, (t, c) ∈ (passLoop reg ctx ts completed results pending started failed).started →
        reg t.agent_type = none →
        missingAgentFail t ∈ (passLoop reg ctx ts completed results pending started failed).failed := by
  intro ts
  induction ts with
  | nil =>
      intro completed results pending started failed h t c hmem hreg0
      exact h t c hmem hreg0
  | cons t ts ih =>
      intro completed results pending started failed h u c hmem hreg0
      obtain ⟨tid, ty, pr, pl, st, par, err⟩ := t
      have hext : ∀ (t1 : Task) (failed1 : List Task),
          (∀ t c, (t, c) ∈ started → reg t.agent_type = none →
            missingAgentFail t ∈ failed1) →
          (reg t1.agent_type = none → missingAgentFail t1 ∈ failed1) →
          ∀ x cx, (x, cx) ∈ started ++ [(t1, completed)] →
            reg x.agent_type = none → missingAgentFail x ∈ failed1 := by
        intro t1 failed1 hold hnew x cx hx hregx
        rcases List.mem_append.mp hx with hx | hx
        · exact hold x cx hx hregx
        · rcases List.mem_singleton.mp hx with hx
          have hx1 : x = t1 := congrArg Prod.fst hx
          subst hx1
          exact hnew hregx
      have hmono : ∀ t c, (t, c) ∈ started → reg t.agent_type = none →
          ∀ (extra : List Task), missingAgentFail t ∈ failed ++ extra :=
        fun t c hm hr extra => List.mem_append_left _ (h t c hm hr)
      rcases hpc : (match (par : Option Nat) with
          | some p => !parentIsCompleted completed p
          | none => false) with _ | _
      · -- not blocked: the task is executed
        rcases hreg : reg ty with _ | f
        · -- missing agent
          simp only [passLoop, hpc, hreg, Bool.false_eq_true, if_false] at hmem ⊢
          refine ih _ _ _ _ _ ?_ u c hmem hreg0
          exact hext _ _ (fun t c hm hr => hmono t c hm hr _)
            (fun _ => List.mem_append_right _ (List.mem_singleton.mpr rfl))
        · rcases hres : f ⟨tid, ty, pr, pl, TaskStatus.in_progress, par, err⟩ ctx with r | r
          · simp only [passLoop, hpc, hreg, hres, Bool.false_eq_true, if_false] at hmem ⊢
            refine ih _ _ _ _ _ ?_ u c hmem hreg0
            exact hext _ _ (fun t c hm hr => hmono t c hm hr _)
              (fun hcontra => absurd (hreg ▸ hcontra) (by simp))
          · simp only [passLoop, hpc, hreg, hres, Bool.false_eq_true, if_false] at hmem ⊢
            refine ih _ _ _ _ _ ?_ u c hmem hreg0
            exact hext _ _ h (fun hcontra => absurd (hreg ▸ hcontra) (by simp))
      · -- blocked: the task is deferred unchanged
        simp only [passLoop, hpc, if_true] at hmem ⊢
        exact ih _ _ _ _ _ h u c hmem hreg0

/-- Helper for C5: within one pass, every started task whose agent raised
an error ends up in the failed list with status `FAILED` and the error
message retained; the pass continues. -/
theorem passLoop_agent_error_contained (reg : Registry) (ctx : InvestmentContext) :
    ∀ (ts completed : List Task) (results : Results) (pending : List Task)
      (started : List (Task × List Task)) (failed : List Task),
      (∀ t c, (t, c) ∈ started → ∀ f e, reg t.agent_type = some f →
        f t ctx = .error e →
        { t with status := TaskStatus.failed, error := some e } ∈ failed) →
      ∀ t c, (t, c) ∈ (passLoop reg ctx ts completed results pending started failed).started →
        ∀ f e, reg t.agent_type = some f → f t ctx = .error e →
        { t with status := TaskStatus.failed, error := some e } ∈
          (passLoop reg ctx ts completed results pending started failed).failed := by
  intro ts
  induction ts with
  | nil =>
      intro completed results pending started failed h t c hmem f e hregf herr
      exact h t c hmem f e hregf herr
  | cons t ts ih =>
      intro completed results pending started failed h u c hmem f e hregf herr
      obtain ⟨tid, ty, pr, pl, st, par, err⟩ := t
      have hext : ∀ (t1 : Task) (failed1 : List Task),
          (∀ t c, (t, c) ∈ started → ∀ f e, reg t.agent_type = some f →
            f t ctx = .error e →
            { t with status := TaskStatus.failed, error := some e } ∈ failed1) →
          (∀ f e, reg t1.agent_type = some f → f t1 ctx = .error e →
            { t1 with status := TaskStatus.failed, error := some e } ∈ failed1) →
          ∀ x cx, (x, cx) ∈ started ++ [(t1, completed)] →
            ∀ f e, reg x.agent_type = some f → f x ctx = .error e →
            { x with status := TaskStatus.failed, error := some e } ∈ failed1 := by
        intro t1 failed1 hold hnew x cx hx f' e' hregx herrx
        rcases List.mem_append.mp hx with hx | hx
        · exact hold x cx hx f' e' hregx herrx
        · rcases List.mem_singleton.mp hx with hx
          have hx1 : x = t1 := congrArg Prod.fst hx
          subst hx1
          exact hnew f' e' hregx herrx
      have hmono : ∀ (extra : List Task),
          ∀ t c, (t, c) ∈ started → ∀ f e, reg t.agent_type = some f →
            f t ctx = .error e →
            { t with status := TaskStatus.failed, error := some e } ∈ failed ++ extra :=
        fun extra t c hm f' e' hr he => List.mem_append_left _ (h t c hm f' e' hr he)
      rcases hpc : (match (par : Option Nat) with
          | some p => !parentIsCompleted completed p
          | none => false) with _ | _
      · rcases hreg : reg ty with _ | g
        · simp only [passLoop, hpc, hreg, Bool.false_eq_true, if_false] at hmem ⊢
          refine ih _ _ _ _ _ ?_ u c hmem f e hregf herr
          exact hext _ _ (hmono _)
            (fun f' e' hcontra _ => absurd (hreg ▸ hcontra) (by simp))
        · rcases hres : g ⟨tid, ty, pr, pl, TaskStatus.in_progress, par, err⟩ ctx with r | r
          · -- the agent raised: the failed record is appended
            simp only [passLoop, hpc, hreg, hres, Bool.false_eq_true, if_false] at hmem ⊢
            refine ih _ _ _ _ _ ?_ u c hmem f e hregf herr
            refine hext _ _ (hmono _) ?_
            intro f' e' hregx herrx
            have hfg : f' = g := Option.some.inj (hregx.symm.trans hreg)
            subst hfg
            have hre : r = e' := by
              rw [hres] at herrx
              exact Except.error.inj herrx
            subst hre
            exact List.mem_append_right _ (List.mem_singleton.mpr rfl)
          · -- the agent succeeded: no failure to contain for the new task
            simp only [passLoop, hpc, hreg, hres, Bool.false_eq_true, if_false] at hmem ⊢
            refine ih _ _ _ _ _ ?_ u c hmem f e hregf herr
            refine hext _ _ h ?_
            intro f' e' hregx herrx
            have hfg : f' = g := Option.some.inj (hregx.symm.trans hreg)
            subst hfg
            rw [hres] at herrx
            exact nomatch herrx
      · simp only [passLoop, hpc, if_true] at hmem ⊢
        exact ih _ _ _ _ _ h u c hmem f e hregf herr

/-- Helper for C4: the missing-agent containment lifted through the
recursion of `executeTasks`. -/
theorem executeTasks_missing_agent_contained (reg : Registry) (ctx : InvestmentContext) :
    ∀ (fuel : Nat) (queue completed : List Task) (out : ExecOut),
      executeTasks reg ctx fuel queue completed = some out →
      ∀ t c, (t, c) ∈ out.started → reg t.agent_type = none →
        missingAgentFail t ∈ out.failed := by
  intro fuel
  induction fuel with
  | zero => intro queue completed out h; exact nomatch h
  | succ n ih =>
      intro queue completed out h t c hmem hreg0
      simp only [executeTasks] at h
      rcases hemp : (passLoop reg ctx (sortTasks queue) completed [] [] [] []).pending.isEmpty with _ | _
      · rw [hemp] at h
        simp only [Bool.false_eq_true, if_false] at h
        rcases heq : executeTasks reg ctx n
            (passLoop reg ctx (sortTasks queue) completed [] [] [] []).pending
            (passLoop reg ctx (sortTasks queue) completed [] [] [] []).completed with _ | out2
        · rw [heq] at h; exact nomatch h
        · rw [heq] at h
          have hout := Option.some.inj h
          rw [← hout] at hmem ⊢
          rcases List.mem_append.mp hmem with hm | hm
          · exact List.mem_append_left _
              (passLoop_missing_agent_contained reg ctx _ _ _ _ _ _
                (fun x cx hx => absurd hx (List.not_mem_nil _)) t c hm hreg0)
          · exact List.mem_append_right _ (ih _ _ _ heq t c hm hreg0)
      · rw [hemp] at h
        simp only [if_true] at h
        have hout := Option.some.inj h
        rw [← hout] at hmem ⊢
        exact passLoop_missing_agent_contained reg ctx _ _ _ _ _ _
          (fun x cx hx => absurd hx (List.not_mem_nil _)) t c hmem hreg0

/-- Helper for C5: the agent-error containment lifted through the
recursion of `executeTasks`. -/
theorem executeTasks_agent_error_contained (reg : Registry) (ctx : InvestmentContext) :
    ∀ (fuel : Nat) (queue completed : List Task) (out : ExecOut),
      executeTasks reg ctx fuel queue completed = some out →
      ∀ t c, (t, c) ∈ out.started → ∀ f e, reg t.agent_type = some f →
        f t ctx = .error e →
        { t with status := TaskStatus.failed, error := some e } ∈ out.failed := by
  intro fuel
  induction fuel with
  | zero => intro queue completed out h; exact nomatch h
  | succ n ih =>
      intro queue completed out h t c hmem f e hregf herr
      simp only [executeTasks] at h
      rcases hemp : (passLoop reg ctx (sortTasks queue) completed [] [] [] []).pending.isEmpty with _ | _
      · rw [hemp] at h
        simp only [Bool.false_eq_true, if_false] at h
        rcases heq : executeTasks reg ctx n
            (passLoop reg ctx (sortTasks queue) completed [] [] [] []).pending
            (passLoop reg ctx (sortTasks queue) completed [] [] [] []).completed with _ | out2
        · rw [heq] at h; exact nomatch h
        · rw [heq] at h
          have hout := Option.some.inj h
          rw [← hout] at hmem ⊢
          rcases List.mem_append.mp hmem with hm | hm
          · exact List.mem_append_left _
              (passLoop_agent_error_contained reg ctx _ _ _ _ _ _
                (fun x cx hx => absurd hx (List.not_mem_nil _)) t c hm f e hregf herr)
          · exact List.mem_append_right _ (ih _ _ _ heq t c hm f e hregf herr)
      · rw [hemp] at h
        simp only [if_true] at h
        have hout := Option.some.inj h
        rw [← hout] at hmem ⊢
        exact passLoop_agent_error_contained reg ctx _ _ _ _ _ _
          (fun x cx hx => absurd hx (List.not_mem_nil _)) t c hmem f e hregf herr

/-- C4 counterexample: with no portfolio-construction agent registered,
`_execute_tasks` returns normally — the `ValueError` raised at line 252 is
caught by the per-task handler, the sibling sentiment task still runs to
completion and contributes its result, and the missing registration is
recorded only as the portfolio task's own `FAILED` status.  This refutes
the claim that the configuration error propagates out of execute and
aborts the whole request. -/
theorem c4_counterexample :
    executeTasks regC4 ctx0 1 [tC4portfolio, tC4sentiment] [] = some outC4 ∧
    lookupR outC4.results AgentType.sentiment_analysis = some (.str "sentiment ok") ∧
    outC4.failed = [tC4pFailed] ∧
    tC4pFailed.error = some "No agent registered for type AgentType.PORTFOLIO_CONSTRUCTION" :=
  ⟨rfl, rfl, rfl, rfl⟩

/-- C4 (amended): a task whose agent type has no registration is marked
`FAILED` with the message `No agent registered for type ...` retained on
the task, while the run continues and returns normally; concretely, the
sibling sentiment task of an unregistered portfolio task still completes
and the scheduler returns its result mapping. -/
theorem c4_missing_agent_caught_per_task :
    (∀ (reg : Registry) (ctx : InvestmentContext) (fuel : Nat)
       (queue completed : List Task) (out : ExecOut),
       executeTasks reg ctx fuel queue completed = some out →
       ∀ t c, (t, c) ∈ out.started → reg t.agent_type = none →
         missingAgentFail t ∈ out.failed) ∧
    executeTasks regC4 ctx0 1 [tC4portfolio, tC4sentiment] [] = some outC4 :=
  ⟨fun reg ctx fuel queue completed out h t c hm hr =>
     executeTasks_missing_agent_contained reg ctx fuel queue completed out h t c hm hr,
   rfl⟩

/-- Witness for C4 at a concrete run: the unregistered portfolio task ends
up failed with the configuration message. -/
theorem c4_witness : missingAgentFail tC4pStarted ∈ outC4.failed :=
  c4_missing_agent_caught_per_task.1 regC4 ctx0 1 [tC4portfolio, tC4sentiment] [] outC4
    rfl tC4pStarted [] (by decide) rfl

/-- C5 counterexample: a portfolio task whose screening criteria no asset
satisfies makes the agent raise `No assets found matching the specified
criteria`, but the scheduler catches it at the per-task boundary: the run
returns normally with an empty result mapping, and synthesis still
proceeds, producing a recommendation with an empty portfolio (plus the US
disclaimer and a forced human-review flag from the low confidence).  This
refutes the claim that the error is surfaced to the caller and aborts the
request before synthesis. -/
theorem c5_counterexample :
    executeTasks regC5 ctx0 1 [tC5] [] = some outC5 ∧
    outC5.results = [] ∧
    outC5.failed = [tC5Failed] ∧
    tC5Failed.error = some "No assets found matching the specified criteria" ∧
    synthesize_results outC5.results ctx0 =
      ⟨.obj [], .obj [], .obj [], 0.5, [], [], [usDisclaimer], true⟩ := by
  refine ⟨?_, rfl, rfl, rfl, ?_⟩
  · with_unfolding_all rfl
  · with_unfolding_all rfl

/-- C5 (amended): when screening leaves no eligible candidates the
modelled `PortfolioConstructionAgent.process` raises exactly the
`No assets found matching the specified criteria` error; the scheduler
contains any agent error as the task's own `FAILED` status with the
message retained; and synthesis still proceeds on a result mapping with no
portfolio entry, defaulting to an empty allocation. -/
theorem c5_infeasible_screening_caught_per_task :
    (∀ (solver : List AssetCandidate → ℚ → List ℚ) (task : Task) (ctx : InvestmentContext),
       screen_assets (determine_beta_constraints task.payload ctx.risk_tolerance).1
         (determine_beta_constraints task.payload ctx.risk_tolerance).2
         (payloadNum task.payload "min_liquidity" 0.85) = [] →
       portfolio_construction_process solver task ctx =
         .error "No assets found matching the specified criteria") ∧
    (∀ (reg : Registry) (ctx : InvestmentContext) (fuel : Nat)
       (queue completed : List Task) (out : ExecOut),
       executeTasks reg ctx fuel queue completed = some out →
       ∀ t c, (t, c) ∈ out.started → ∀ f e, reg t.agent_type = some f →
         f t ctx = .error e →
         { t with status := TaskStatus.failed, error := some e } ∈ out.failed) ∧
    (∀ (results : Results) (ctx : InvestmentContext),
       lookupR results AgentType.portfolio_construction = none →
       (synthesize_results results ctx).portfolio = RVal.obj []) := by
  refine ⟨?_, ?_, ?_⟩
  · intro solver task ctx hempty
    simp [portfolio_construction_process, hempty]
  · exact fun reg ctx fuel queue completed out h t c hm f e hrf he =>
      executeTasks_agent_error_contained reg ctx fuel queue completed out h t c hm f e hrf he
  · intro results ctx hnone
    simp [synthesize_results, hnone, RVal.get]

/-- Witness for C5 at a concrete run: the infeasible portfolio task fails
with the screening message, is contained, and synthesis defaults to an
empty portfolio. -/
theorem c5_witness :
    portfolio_construction_process solverZero tC5Started ctx0 =
      .error "No assets found matching the specified criteria" ∧
    { tC5Started with
      status := TaskStatus.failed,
      error := some "No assets found matching the specified criteria" } ∈ outC5.failed ∧
    (synthesize_results [] ctx0).portfolio = RVal.obj [] :=
  ⟨c5_infeasible_screening_caught_per_task.1 solverZero tC5Started ctx0
     (by with_unfolding_all rfl),
   c5_infeasible_screening_caught_per_task.2.1 regC5 ctx0 1 [tC5] [] outC5
     (by with_unfolding_all rfl) tC5Started [] (List.mem_singleton.mpr rfl)
     (portfolio_construction_process solverZero)
     "No assets found matching the specified criteria" rfl
     (by with_unfolding_all rfl),
   c5_infeasible_screening_caught_per_task.2.2 [] ctx0 rfl⟩

/-- Helper for C3: summing a list divided pointwise by a constant. -/
theorem list_sum_map_div (l : List ℚ) (t : ℚ) :
    (l.map (fun x => x / t)).sum = l.sum / t := by
  induction l with
  | nil => simp
  | cons a l ih => simp [ih, add_div]

/-- Helper for C3: a member of the right list of a length-matched zip is
paired with some member of the left list. -/
theorem exists_pair_of_mem_right {α β : Type} :
    ∀ (as : List α) (bs : List β), as.length = bs.length →
      ∀ b ∈ bs, ∃ a, (a, b) ∈ as.zip bs := by
  intro as
  induction as with
  | nil =>
      intro bs h b hb
      cases bs with
      | nil => exact absurd hb (List.not_mem_nil _)
      | cons b0 bs => exact nomatch h
  | cons a as ih =>
      intro bs h b hb
      cases bs with
      | nil => exact absurd hb (List.not_mem_nil _)
      | cons b0 bs =>
          rcases List.mem_cons.mp hb with hb | hb
          · subst hb; exact ⟨a, List.mem_cons_self _ _⟩
          · obtain ⟨a', ha'⟩ := ih bs (Nat.succ.inj h) b hb
            exact ⟨a', List.mem_cons_of_mem _ ha'⟩

/-- Helper for C3: the sum of the second components after the
renormalizing division. -/
theorem pair_snd_div_sum (l : List (String × ℚ)) (t : ℚ) :
    ((l.map (fun p => (p.1, p.2 / t))).map (fun x => x.2)).sum =
      (l.map (fun p => p.2)).sum / t := by
  rw [List.map_map]
  have hcomp : ((fun x : String × ℚ => x.2) ∘ fun p : String × ℚ => (p.1, p.2 / t)) =
      ((fun x : ℚ => x / t) ∘ fun p : String × ℚ => p.2) := rfl
  rw [hcomp, ← List.map_map, list_sum_map_div]

/-- C3 counterexample: a solver output that respects the box bounds
`[0, maxPositionSize]` for the moderate max position size 0.25 and sums to
1 exactly, on which the post-processing (drop the 1/200 weight below 1
percent, renormalize by the kept total 199/200) pushes three weights up to
50/199, strictly above the 0.25 bound.  This refutes the claimed
`≤ maxPositionSize` invariant of the returned allocation. -/
theorem c3_counterexample :
    (wsBoundary.all fun w =>
      decide (0 ≤ w) && decide (w ≤ determine_max_position_size "moderate")) = true ∧
    wsBoundary.sum = 1 ∧
    postProcessAllocations assetsFive wsBoundary =
      .ok [("AGG", 50/199), ("BND", 50/199), ("VCSH", 50/199), ("MUB", 49/199)] ∧
    determine_max_position_size "moderate" < 50/199 := by
  refine ⟨?_, ?_, ?_, ?_⟩
  · with_unfolding_all rfl
  · with_unfolding_all decide
  · with_unfolding_all rfl
  · with_unfolding_all decide

/-- C3 (amended): whenever the solver weight vector matches the asset list
in length and assigns at least one weight strictly above the 1 percent
cutoff, the post-processed allocation is returned without error, is
non-empty, has every weight strictly positive, and sums to exactly 1; the
upper bound `maxPositionSize` is not preserved by the renormalization (see
the counterexample). -/
theorem c3_weights_positive_and_sum_one
    (assets : List AssetCandidate) (ws : List ℚ)
    (hlen : assets.length = ws.length) (hex : ∃ w ∈ ws, w > 0.01) :
    ∃ pp, postProcessAllocations assets ws = .ok pp ∧ 0 < pp.length ∧
      (∀ x ∈ pp, 0 < x.2) ∧ (pp.map (fun x => x.2)).sum = 1 := by
  obtain ⟨w, hwmem, hw⟩ := hex
  obtain ⟨a, hpair⟩ := exists_pair_of_mem_right assets ws hlen w hwmem
  have hmemf : (a, w) ∈ (assets.zip ws).filter (fun p => decide (p.2 > 0.01)) :=
    List.mem_filter.mpr ⟨hpair, by simpa using hw⟩
  have hpos01 : (0 : ℚ) < 0.01 := by norm_num
  have hposL : ∀ p ∈ (assets.zip ws).filter (fun p => decide (p.2 > 0.01)),
      (0 : ℚ) < p.2 := by
    intro p hp
    have := (List.mem_filter.mp hp).2
    rw [decide_eq_true_eq] at this
    exact lt_trans hpos01 this
  have hallocpos : ∀ x ∈ ((assets.zip ws).filter
      (fun p => decide (p.2 > 0.01))).map (fun p => (p.1.symbol, p.2)), (0 : ℚ) < x.2 := by
    intro x hx
    obtain ⟨p, hp, rfl⟩ := List.mem_map.mp hx
    exact hposL p hp
  have hne : ((assets.zip ws).filter
      (fun p => decide (p.2 > 0.01))).map (fun p => (p.1.symbol, p.2)) ≠ [] := by
    intro hnil
    rw [List.map_eq_nil_iff] at hnil
    rw [hnil] at hmemf
    exact absurd hmemf (List.not_mem_nil _)
  have hsumpos : (0 : ℚ) < ((((assets.zip ws).filter
      (fun p => decide (p.2 > 0.01))).map (fun p => (p.1.symbol, p.2))).map
        (fun p => p.2)).sum := by
    refine List.sum_pos _ ?_ ?_
    · intro x hx
      obtain ⟨q, hq, rfl⟩ := List.mem_map.mp hx
      exact hallocpos q hq
    · intro hnil
      rw [List.map_eq_nil_iff] at hnil
      exact hne hnil
  have hemp : (((assets.zip ws).filter
      (fun p => decide (p.2 > 0.01))).map (fun p => (p.1.symbol, p.2))).isEmpty = false := by
    rcases hcase : ((assets.zip ws).filter
        (fun p => decide (p.2 > 0.01))).map (fun p => (p.1.symbol, p.2)) with _ | ⟨x, xs⟩
    · exact absurd hcase hne
    · rw [hcase]; rfl
  rw [postProcessAllocations]
  rw [hemp]
  rw [if_neg (by exact fun hcontra => nomatch hcontra)]
  rw [if_neg (ne_of_gt hsumpos)]
  refine ⟨_, rfl, ?_, ?_, ?_⟩
  · rw [List.length_map]
    rcases hcase : ((assets.zip ws).filter
        (fun p => decide (p.2 > 0.01))).map (fun p => (p.1.symbol, p.2)) with _ | ⟨x, xs⟩
    · exact absurd hcase hne
    · rw [hcase]; exact Nat.succ_pos _
  · intro x hx
    obtain ⟨p, hp, rfl⟩ := List.mem_map.mp hx
    exact div_pos (hallocpos p hp) hsumpos
  · rw [pair_snd_div_sum, div_self (ne_of_gt hsumpos)]

/-- Witness for C3 at the concrete boundary input. -/
theorem c3_witness :
    ∃ pp, postProcessAllocations assetsFive wsBoundary = .ok pp ∧ 0 < pp.length ∧
      (∀ x ∈ pp, 0 < x.2) ∧ (pp.map (fun x => x.2)).sum = 1 :=
  c3_weights_positive_and_sum_one assetsFive wsBoundary (by with_unfolding_all decide)
    ⟨1/4, by with_unfolding_all decide, by with_unfolding_all decide⟩

/-- C10 counterexample: on a non-empty candidate list where no solver
weight exceeds the 1 percent cutoff, the dict comprehension iterates an
empty kept set, so no division is evaluated: the post-processing returns
an empty allocation mapping instead of raising `ZeroDivisionError`.  This
refutes the claimed division by zero. -/
theorem c10_counterexample :
    (wsLow.all fun w => decide (w ≤ 0.01)) = true ∧
    assetsFive.length = 5 ∧
    postProcessAllocations assetsFive wsLow = .ok [] := by
  refine ⟨?_, ?_, ?_⟩
  · with_unfolding_all rfl
  · with_unfolding_all rfl
  · with_unfolding_all rfl

/-- C10 (amended): when no solver weight exceeds the 1 percent cutoff, the
post-processing returns an empty allocation without error; the division by
the total kept weight is never evaluated on an empty kept set, so no
division by zero can occur. -/
theorem c10_all_below_cutoff_yields_empty_allocation
    (assets : List AssetCandidate) (ws : List ℚ)
    (h : ∀ w ∈ ws, w ≤ 0.01) :
    postProcessAllocations assets ws = .ok [] := by
  have hfilter : (assets.zip ws).filter (fun p => decide (p.2 > 0.01)) = [] := by
    rw [List.filter_eq_nil_iff]
    intro p hp
    have hin := (List.of_mem_zip hp).2
    have hle := h _ hin
    simp only [decide_eq_true_eq]
    exact not_lt.mpr hle
  simp [postProcessAllocations, hfilter]

/-- Witness for C10 at the concrete all-below-cutoff input. -/
theorem c10_witness : postProcessAllocations assetsFive wsLow = .ok [] :=
  c10_all_below_cutoff_yields_empty_allocation assetsFive wsLow
    (by with_unfolding_all decide)

/-- C6: the human-review flag is set exactly when confidence is below
0.70, or capital available exceeds 100000, or the risk tolerance string is
exactly `aggressive` (so not `very_aggressive`); with capital 30000,
moderate tolerance and all four agent results present the confidence is
capped at 0.95 and the flag is false; with the aggressive context the flag
is true for every confidence value. -/
theorem c6_human_review_rule :
    (∀ (conf : ℚ) (ctx : InvestmentContext),
        requires_human_review conf ctx = true ↔
          (conf < 0.7 ∨ ctx.capital_available > 100000 ∨
            ctx.risk_tolerance = "aggressive")) ∧
    calculate_confidence allFourResults = 0.95 ∧
    requires_human_review (calculate_confidence allFourResults) ctx0 = false ∧
    (∀ conf : ℚ, requires_human_review conf ctxAggressive = true) := by
  refine ⟨?_, ?_, ?_, ?_⟩
  · intro conf ctx
    rw [requires_human_review]
    split_ifs with h1 h2 h3
    · simp [h1]
    · simp [h2]
    · rw [beq_iff_eq] at h3
      simp [h3]
    · rw [beq_iff_eq] at h3
      simp [h1, h2, h3]
  · with_unfolding_all decide
  · with_unfolding_all decide
  · intro conf
    rw [requires_human_review]
    split_ifs with h1 h2 h3
    · rfl
    · rfl
    · rfl
    · exact absurd (by decide) h3

set_option maxRecDepth 3000

/-- C7 counterexample: for beta range `[0.4, 0.8]` and minimum liquidity
0.85 the screener puts AGG (expense ratio 0.0003) before USMV (expense
ratio 0.0015) although both have liquidity score 0.95; under the claimed
descending-expense-ratio tie-break USMV would have to come first, so the
claimed secondary sort key is refuted (the code key `-expense_ratio` with
`reverse=True` yields an ascending expense tie-break). -/
theorem c7_counterexample :
    (screen_assets 0.4 0.8 0.85).map (fun a => a.symbol) =
      ["AGG", "USMV", "BND", "VIG", "XLV", "SCHD", "XLP", "SPLV", "VDC", "TIP",
       "DVY", "VNQ", "XLRE", "VPU"] ∧
    ((screen_assets 0.4 0.8 0.85).map (fun a => (a.liquidity_score, a.expense_ratio))).take 2 =
      [(0.95, 0.0003), (0.95, 0.0015)] ∧
    (0.0003 : ℚ) < 0.0015 := by
  have hscreen : screen_assets 0.4 0.8 0.85 = screenedAssets := by
    with_unfolding_all rfl
  refine ⟨?_, ?_, ?_⟩
  · rw [hscreen]; with_unfolding_all rfl
  · rw [hscreen]; with_unfolding_all rfl
  · with_unfolding_all decide

/-- C7 (amended): screening `[0.4, 0.8]` with liquidity at least 0.85
returns exactly the qualifying subset of the 20-asset universe (same
symbols up to permutation as the filter of the universe), in the
deterministic order `screenedAssets`, which is sorted by descending
liquidity score with ascending expense ratio as the secondary tie-break
key. -/
theorem c7_screen_deterministic_order :
    screen_assets 0.4 0.8 0.85 = screenedAssets ∧
    ((screen_assets 0.4 0.8 0.85).map (fun a => a.symbol)).Perm
      ((asset_universe.filter fun a =>
        decide (0.4 ≤ a.beta) && decide (a.beta ≤ 0.8) &&
          decide (a.liquidity_score ≥ 0.85)).map (fun a => a.symbol)) ∧
    List.Pairwise (fun a b =>
      b.liquidity_score < a.liquidity_score ∨
        (a.liquidity_score = b.liquidity_score ∧ a.expense_ratio ≤ b.expense_ratio))
      screenedAssets := by
  have hscreen : screen_assets 0.4 0.8 0.85 = screenedAssets := by
    with_unfolding_all rfl
  refine ⟨hscreen, ?_, ?_⟩
  · rw [hscreen]
    have hfil : (asset_universe.filter fun a =>
        decide (0.4 ≤ a.beta) && decide (a.beta ≤ 0.8) &&
          decide (a.liquidity_score ≥ 0.85)) =
        [⟨"AGG", "ETF", 0.4, 0.03, 0.04, 0.95, 0.0003, 100000000000, "Bonds", "AGG"⟩,
         ⟨"BND", "ETF", 0.42, 0.032, 0.041, 0.94, 0.0003, 95000000000, "Bonds", "BND"⟩,
         ⟨"VPU", "ETF", 0.5, 0.06, 0.12, 0.88, 0.001, 15000000000, "Utilities", "VPU"⟩,
         ⟨"XLRE", "ETF", 0.65, 0.07, 0.15, 0.89, 0.001, 12000000000, "Real Estate", "XLRE"⟩,
         ⟨"VNQ", "ETF", 0.68, 0.072, 0.16, 0.91, 0.0012, 35000000000, "Real Estate", "VNQ"⟩,
         ⟨"DVY", "ETF", 0.75, 0.08, 0.14, 0.92, 0.0038, 20000000000, "Dividend", "DVY"⟩,
         ⟨"SCHD", "ETF", 0.72, 0.082, 0.13, 0.93, 0.0006, 45000000000, "Dividend", "SCHD"⟩,
         ⟨"VIG", "ETF", 0.78, 0.085, 0.135, 0.94, 0.0006, 70000000000, "Dividend", "VIG"⟩,
         ⟨"XLP", "ETF", 0.55, 0.065, 0.11, 0.93, 0.001, 18000000000, "Consumer Staples", "XLP"⟩,
         ⟨"VDC", "ETF", 0.53, 0.063, 0.108, 0.92, 0.001, 8000000000, "Consumer Staples", "VDC"⟩,
         ⟨"XLV", "ETF", 0.60, 0.09, 0.13, 0.94, 0.001, 40000000000, "Healthcare", "XLV"⟩,
         ⟨"USMV", "ETF", 0.70, 0.085, 0.12, 0.95, 0.0015, 35000000000, "Low Volatility", "USMV"⟩,
         ⟨"SPLV", "ETF", 0.65, 0.075, 0.10, 0.93, 0.0025, 15000000000, "Low Volatility", "SPLV"⟩,
         ⟨"TIP", "ETF", 0.45, 0.035, 0.06, 0.92, 0.0019, 25000000000, "Inflation Protected", "TIP"⟩] := by
      with_unfolding_all rfl
    rw [hfil]
    decide
  · with_unfolding_all decide

/-- C8 counterexample: for the query `hello world` (no uppercase token)
the market-research payload carries the empty symbol list, not a default
basket (the SPY/QQQ/DIA default is applied later inside the agents, not by
the decomposition); and the portfolio-construction payload contains only
the capital — no `min_beta`, `max_beta` or `min_liquidity` override keys
ever appear, whatever the context holds. -/
theorem c8_counterexample :
    (decompose_request 0 1 2 3 "hello world" ctx0).map (fun t => t.payload) =
      [[("query", .str "hello world"), ("symbols", .strs [])],
       [("query", .str "hello world"), ("symbols", .strs [])],
       [("risk_tolerance", .str "moderate")],
       [("capital", .num 30000)]] ∧
    extract_symbols "hello world" = [] ∧
    payloadHas [("capital", PVal.num 30000)] "min_beta" = false ∧
    payloadHas [("capital", PVal.num 30000)] "max_beta" = false ∧
    payloadHas [("capital", PVal.num 30000)] "min_liquidity" = false := by
  refine ⟨?_, ?_, rfl, rfl, rfl⟩
  · with_unfolding_all rfl
  · decide

/-- C8 (amended): decomposition always returns exactly the four tasks
market_research (HIGH, no parent), sentiment_analysis (MEDIUM, no parent),
risk_assessment (HIGH, parent = market research) and
portfolio_construction (CRITICAL, parent = risk assessment), whose
payloads carry the query with the extracted symbols (possibly empty —
the default basket is applied inside the agents), the risk tolerance, and
the capital only; every extracted symbol is an uppercase token of length
between 2 and 5. -/
theorem c8_decomposition_structure :
    (∀ (i1 i2 i3 i4 : Nat) (query : String) (ctx : InvestmentContext),
      decompose_request i1 i2 i3 i4 query ctx =
        [⟨i1, .market_research, .high,
          [("query", .str query), ("symbols", .strs (extract_symbols query))],
          .pending, none, none⟩,
         ⟨i2, .sentiment_analysis, .medium,
          [("query", .str query), ("symbols", .strs (extract_symbols query))],
          .pending, none, none⟩,
         ⟨i3, .risk_assessment, .high,
          [("risk_tolerance", .str ctx.risk_tolerance)], .pending, some i1, none⟩,
         ⟨i4, .portfolio_construction, .critical,
          [("capital", .num ctx.capital_available)], .pending, some i3, none⟩]) ∧
    (∀ (query : String), ∀ s ∈ extract_symbols query,
      2 ≤ s.length ∧ s.length ≤ 5 ∧ s.toList.all isUpperAZ = true) := by
  refine ⟨fun i1 i2 i3 i4 query ctx => rfl, ?_⟩
  intro query s hs
  simp only [extract_symbols] at hs
  obtain ⟨hpot, hlen2⟩ := List.mem_filter.mp hs
  rw [decide_eq_true_eq] at hlen2
  obtain ⟨r, hr, rfl⟩ := List.mem_map.mp hpot
  obtain ⟨hrmem, hrcond⟩ := List.mem_filter.mp hr
  rw [Bool.and_eq_true, Bool.and_eq_true] at hrcond
  obtain ⟨⟨hall, h1⟩, h5⟩ := hrcond
  rw [decide_eq_true_eq] at h5
  refine ⟨hlen2, ?_, ?_⟩
  · have hlm : (String.mk r).length = r.length := rfl
    rw [hlm]; exact h5
  · have htl : (String.mk r).toList = r := rfl
    rw [htl]; exact hall

/-- Witness for C8 at a concrete query with two symbols. -/
theorem c8_witness :
    2 ≤ "AAPL".length ∧ "AAPL".length ≤ 5 ∧ "AAPL".toList.all isUpperAZ = true :=
  c8_decomposition_structure.2 "Invest in AAPL and MSFT" "AAPL" (by decide)

/-- C9: the risk-assessment agent reports its volatility nested under the
`metrics` key (here 0.3, strictly above the 0.20 threshold), but
`_generate_warnings` reads the top-level `volatility` key of the risk
result, which never exists, so the lookup falls back to the default 0 and
the tolerance-exceeded warning is never emitted: with a conservative US
context the warning list contains only the fixed informational disclaimer.
The claim (and the spec) state the warning fires on reported
volatility > 0.20, so the code contradicts the stated intent — a key
mismatch between `RiskAssessmentAgent.process` and
`OrchestratorAgent._generate_warnings`. -/
theorem c9_volatility_key_mismatch :
    riskMetricsHighVol.volatility = 0.3 ∧
    (0.2 : ℚ) < 0.3 ∧
    (riskResultHighVol.get "metrics").map (fun m => m.getNum "volatility" 0) = some 0.3 ∧
    riskResultHighVol.getNum "volatility" 0 = 0 ∧
    generate_warnings [(.risk_assessment, riskResultHighVol)] ctxConservative =
      [usDisclaimer] := by
  refine ⟨rfl, ?_, ?_, ?_, ?_⟩
  · with_unfolding_all decide
  · with_unfolding_all rfl
  · with_unfolding_all rfl
  · with_unfolding_all rfl

end ClaudeAgents
